import Mathlib

/-
Verification of the LiDAR contour-generation pipeline (contourGen.py).

The script's per-class loop (lines 78-101) is embedded as executable Lean
definitions over exact rationals:

* `arangeList` / `np_arange` embed `np.arange(start, stop, step)`:
  numpy materialises `max(0, ceil((stop - start) / step))` elements
  `start + i * step`, and raises `ZeroDivisionError` when `step = 0`.
* `applyMask` embeds numpy boolean-mask indexing `arr[mask]`
  (lines 80-83); `maskOf` embeds `las.classification == class_code`.
* `griddataLinear` embeds `scipy.interpolate.griddata(..., method='linear')`:
  a Delaunay triangulation is built from the sample sites (raising a Qhull
  error when the sites hold fewer than 3 non-collinear points) and each
  query point is evaluated by barycentric interpolation on a containing
  triangle, NaN (here `Option.none`) outside the convex hull.  The
  triangulation itself is modelled both concretely (`interpAt`, which scans
  every triple of samples) and parametrically (`interpTri` over any
  triangle list), since the claims depend only on triangulation-independent
  facts: validity outside the hull and the value at a vertex.
* `levelsFor` embeds line 97, `np.arange(floor(min z), ceil(max z), 0.2)`.
* `allInvalid` embeds `grid_z.mask.all()` on the `masked_invalid` result:
  numpy shrinks an all-False (or empty) mask to `nomask`, whose `.all()`
  is False, so only a nonempty fully-masked field triggers the skip at
  lines 94-95; an empty grid falls through to `ax.contour`, which raises
  `TypeError` on a z array smaller than 2 by 2.
* `classStep` embeds one iteration of the loop body, and `composite`
  the whole loop, recording the layers drawn and the progress fractions
  reported to `st.progress` (line 101), in order.
-/

namespace ContourGen

/-- Errors the numpy/scipy/matplotlib calls in the loop can raise:
`np.arange` with a zero step raises `ZeroDivisionError`; `scipy` raises a
Qhull error when the scattered sites are degenerate (fewer than 3
non-collinear points); `ax.contour` raises `TypeError` when the z array is
smaller than 2 by 2. -/
inductive NpErr where
  | zeroStep : NpErr
  | qhullDegenerate : NpErr
  | contourShape : NpErr
deriving DecidableEq, Repr

/-- Elements of `np.arange(start, stop, step)` for a nonzero step: numpy
materialises `max(0, ceil((stop-start)/step))` values `start + i*step`. -/
def arangeList (start stop step : ℚ) : List ℚ :=
  (List.range (Int.toNat ⌈(stop - start) / step⌉)).map
    (fun (i : ℕ) => start + (i : ℚ) * step)

/-- `np.arange` as called by the script: raises `ZeroDivisionError` when
the step is zero, otherwise returns `arangeList`. -/
def np_arange (start stop step : ℚ) : Except NpErr (List ℚ) :=
  if step = 0 then Except.error NpErr.zeroStep
  else Except.ok (arangeList start stop step)

/-- `np.min` over a list (the script only applies it to subsets that
passed the 100-point guard, so the empty default is never reached). -/
def listMin : List ℚ → ℚ
  | [] => 0
  | x :: xs => xs.foldl min x

/-- `np.max` over a list. -/
def listMax : List ℚ → ℚ
  | [] => 0
  | x :: xs => xs.foldl max x

/-- Boolean-mask selection `arr[mask]` on parallel arrays (numpy keeps, in
order, the entries whose mask bit is set). -/
def applyMask : List Bool → List ℚ → List ℚ
  | true :: bs, v :: vs => v :: applyMask bs vs
  | false :: bs, _ :: vs => applyMask bs vs
  | _, _ => []

/-- The point cloud as loaded by laspy: parallel arrays of planar
coordinates, elevation and integer classification codes. -/
structure Cloud where
  x : List ℚ
  y : List ℚ
  z : List ℚ
  cls : List ℕ
deriving DecidableEq, Repr

/-- `las.classification == class_code` (line 80). -/
def maskOf (cloud : Cloud) (code : ℕ) : List Bool :=
  cloud.cls.map (fun k => k == code)

/-- A scattered sample `(x, (y, z))`. -/
abbrev Pt3 := ℚ × ℚ × ℚ

/-- Planar site of a sample. -/
def xyOf (s : Pt3) : ℚ × ℚ := (s.1, s.2.1)

/-- Elevation of a sample. -/
def zOf (s : Pt3) : ℚ := s.2.2

/-- Samples `(x, y, z)` zipped from the masked parallel arrays, as handed
to `griddata((x, y), z, ...)`. -/
def samplesOf (sx sy sz : List ℚ) : List Pt3 :=
  sx.zip (sy.zip sz)

/-- 2D cross product `u.1 * v.2 - u.2 * v.1`. -/
def det2 (u v : ℚ × ℚ) : ℚ := u.1 * v.2 - u.2 * v.1

/-- Qhull's degeneracy condition on the sample sites: fewer than 3
non-collinear points (then no 2D Delaunay triangulation exists and
`scipy.spatial.Delaunay` raises).  Checked against the line through the
first two distinct sites. -/
def allCollinear (ps : List (ℚ × ℚ)) : Bool :=
  match ps with
  | [] => true
  | a :: rest =>
    match rest.find? (fun p => decide (p ≠ a)) with
    | none => true
    | some b => (a :: rest).all (fun p => decide (det2 (b - a) (p - a) = 0))

/-- Closed-triangle membership test via barycentric coordinates (false on a
degenerate triangle, which a Delaunay triangulation never contains). -/
def triContains (A B C P : ℚ × ℚ) : Bool :=
  let d := det2 (B - A) (C - A)
  if d = 0 then false
  else
    let β := det2 (P - A) (C - A) / d
    let γ := det2 (B - A) (P - A) / d
    decide (0 ≤ β) && decide (0 ≤ γ) && decide (β + γ ≤ 1)

/-- Barycentric (piecewise-linear) interpolation of a query inside one
triangle of samples. -/
def triValue (a b c : Pt3) (P : ℚ × ℚ) : ℚ :=
  let A := xyOf a
  let B := xyOf b
  let C := xyOf c
  let d := det2 (B - A) (C - A)
  let β := det2 (P - A) (C - A) / d
  let γ := det2 (B - A) (P - A) / d
  (1 - β - γ) * zOf a + β * zOf b + γ * zOf c

/-- Linear interpolation over an explicit triangle list: the value at `P`
comes from the first triangle containing `P`, and `P` is invalid (numpy
NaN, masked by `np.ma.masked_invalid`) when no triangle contains it. -/
def interpTri (T : List (Pt3 × Pt3 × Pt3)) (P : ℚ × ℚ) : Option ℚ :=
  match T.find? (fun t => triContains (xyOf t.1) (xyOf t.2.1) (xyOf t.2.2) P) with
  | none => none
  | some t => some (triValue t.1 t.2.1 t.2.2 P)

/-- Every ordered triple of samples: a concrete triangle list whose
coverage is exactly the convex hull of the sample sites. -/
def allTriples (samples : List Pt3) : List (Pt3 × Pt3 × Pt3) :=
  samples.flatMap (fun a => samples.flatMap (fun b => samples.map (fun c => (a, b, c))))

/-- The interpolated value `griddata` produces at one grid point. -/
def interpAt (samples : List Pt3) (P : ℚ × ℚ) : Option ℚ :=
  interpTri (allTriples samples) P

/-- A triangle list drawn from the given samples, with this file's
containment test implying nondegeneracy; `scipy`'s Delaunay triangulation
of the sample sites is such a list. -/
def IsTriangOf (samples : List Pt3) (T : List (Pt3 × Pt3 × Pt3)) : Prop :=
  ∀ t ∈ T, t.1 ∈ samples ∧ t.2.1 ∈ samples ∧ t.2.2 ∈ samples

/-- `griddata((x, y), z, (grid_x, grid_y), method='linear')` followed by
`np.ma.masked_invalid` (lines 91-92): Delaunay construction raises on
degenerate sites; otherwise each grid point of the `meshgrid` (row-major in
y, as numpy lays it out) is interpolated, `none` marking a masked cell. -/
def griddataLinear (sx sy sz : List ℚ) (xr yr : List ℚ) :
    Except NpErr (List (List (Option ℚ))) :=
  let samples := samplesOf sx sy sz
  if allCollinear (samples.map xyOf) then Except.error NpErr.qhullDegenerate
  else Except.ok (yr.map (fun gy => xr.map (fun gx => interpAt samples (gx, gy))))

/-- `grid_z.mask.all()` (line 94) on the masked array built by
`np.ma.masked_invalid`: when no cell is invalid — in particular when the
grid is empty — the all-False mask is shrunk to `nomask` (`np.False_`),
whose `.all()` is False; only a nonempty field whose every cell is masked
keeps an explicit mask with `.all()` true. -/
def allInvalid (field : List (List (Option ℚ))) : Bool :=
  field.any (fun row => !row.isEmpty)
    && field.all (fun row => row.all (fun cell => cell.isNone))

/-- `np.arange(np.floor(np.min(z)), np.ceil(np.max(z)), 0.2)` (line 97). -/
def levelsFor (zs : List ℚ) : List ℚ :=
  arangeList ((⌊listMin zs⌋ : ℤ) : ℚ) ((⌈listMax zs⌉ : ℤ) : ℚ) (1 / 5)

/-- One drawn contour layer: class code, colour, line width and the level
set handed to `ax.contour` (lines 98-99). -/
structure Layer where
  cls : ℕ
  color : String
  lineWidth : ℚ
  levels : List ℚ
deriving DecidableEq, Repr

/-- One iteration of the loop body (lines 79-99): filter the class, skip it
under 100 points, build the ranges, interpolate, skip a nonempty fully
masked field, otherwise draw — where `ax.contour` (line 98) raises
`TypeError` unless the z array is at least 2 by 2 (its shape is
`(len(y_range), len(x_range))`).  `Except.ok none` is a `continue`,
`Except.error` an uncaught exception. -/
def classStep (cloud : Cloud) (colors : ℕ → String) (spacing lineWidth : ℚ)
    (c : ℕ) : Except NpErr (Option Layer) :=
  let mask := maskOf cloud c
  let sx := applyMask mask cloud.x
  let sy := applyMask mask cloud.y
  let sz := applyMask mask cloud.z
  if sz.length < 100 then Except.ok none
  else
    match np_arange (listMin sx) (listMax sx) spacing with
    | Except.error e => Except.error e
    | Except.ok xr =>
      match np_arange (listMin sy) (listMax sy) spacing with
      | Except.error e => Except.error e
      | Except.ok yr =>
        match griddataLinear sx sy sz xr yr with
        | Except.error e => Except.error e
        | Except.ok field =>
          if allInvalid field then Except.ok none
          else if yr.length < 2 ∨ xr.length < 2 then Except.error NpErr.contourShape
          else Except.ok (some ⟨c, colors c, lineWidth, levelsFor sz⟩)

/-- The loop of lines 78-101 over the remaining classes, `i` the enumerate
index and `n = len(selected_classes)`.  Returns the layers drawn onto the
axes and the fractions reported to `st.progress`, both in order; note the
progress call (line 101) sits after the two `continue`s, so a skipped
class reports nothing. -/
def compositeAux (cloud : Cloud) (colors : ℕ → String) (spacing lineWidth : ℚ)
    (n : ℕ) : List ℕ → ℕ → Except NpErr (List Layer × List ℚ)
  | [], _ => Except.ok ([], [])
  | c :: rest, i =>
    match classStep cloud colors spacing lineWidth c with
    | Except.error e => Except.error e
    | Except.ok none => compositeAux cloud colors spacing lineWidth n rest (i + 1)
    | Except.ok (some lay) =>
      match compositeAux cloud colors spacing lineWidth n rest (i + 1) with
      | Except.error e => Except.error e
      | Except.ok (ls, ps) =>
        Except.ok (lay :: ls, ((i : ℚ) + 1) / (n : ℚ) :: ps)

/-- The whole generation pass over the selected classes. -/
def composite (cloud : Cloud) (colors : ℕ → String) (spacing lineWidth : ℚ)
    (selected : List ℕ) : Except NpErr (List Layer × List ℚ) :=
  compositeAux cloud colors spacing lineWidth selected.length selected 0

/-! Helper lemmas about `np.arange` and the fold-based min/max. -/

theorem arangeList_length (start stop step : ℚ) :
    (arangeList start stop step).length = (⌈(stop - start) / step⌉).toNat := by
  unfold arangeList
  rw [List.length_map, List.length_range]

theorem arangeList_get (start stop step : ℚ) (i : ℕ)
    (h : i < (arangeList start stop step).length) :
    (arangeList start stop step).get ⟨i, h⟩ = start + (i : ℚ) * step := by
  unfold arangeList
  simp only [List.get_eq_getElem, List.getElem_map, List.getElem_range]

theorem arangeList_mem_lt (start stop step : ℚ) (hstep : 0 < step) :
    ∀ v ∈ arangeList start stop step, v < stop := by
  intro v hv
  unfold arangeList at hv
  rw [List.mem_map] at hv
  obtain ⟨i, hi, rfl⟩ := hv
  rw [List.mem_range] at hi
  have hiz : (i : ℤ) < ⌈(stop - start) / step⌉ := Int.lt_toNat.mp hi
  have hiq : (i : ℚ) < (stop - start) / step := by
    have := Int.lt_ceil.mp hiz
    push_cast at this
    exact this
  have hmul : (i : ℚ) * step < (stop - start) / step * step :=
    mul_lt_mul_of_pos_right hiq hstep
  rw [div_mul_cancel₀ _ (ne_of_gt hstep)] at hmul
  linarith

theorem listMin_foldl_le (xs : List ℚ) (a : ℚ) : xs.foldl min a ≤ a := by
  induction xs generalizing a with
  | nil => exact le_refl a
  | cons y ys ih => exact le_trans (ih (min a y)) (min_le_left a y)

theorem listMax_le_foldl (xs : List ℚ) (a : ℚ) : a ≤ xs.foldl max a := by
  induction xs generalizing a with
  | nil => exact le_refl a
  | cons y ys ih => exact le_trans (le_max_left a y) (ih (max a y))

theorem listMin_le_listMax (xs : List ℚ) : listMin xs ≤ listMax xs := by
  cases xs with
  | nil => exact le_refl 0
  | cons x xs =>
    exact le_trans (listMin_foldl_le xs x) (listMax_le_foldl xs x)

theorem foldl_min_const (xs : List ℚ) (c a : ℚ) (hxs : ∀ z ∈ xs, z = c)
    (ha : a = c) : xs.foldl min a = c := by
  induction xs generalizing a with
  | nil => exact ha
  | cons y ys ih =>
    have hy : y = c := hxs y (List.mem_cons_self y ys)
    exact ih (min a y) (fun z hz => hxs z (List.mem_cons_of_mem y hz))
      (by rw [ha, hy]; exact min_self c)

theorem foldl_max_const (xs : List ℚ) (c a : ℚ) (hxs : ∀ z ∈ xs, z = c)
    (ha : a = c) : xs.foldl max a = c := by
  induction xs generalizing a with
  | nil => exact ha
  | cons y ys ih =>
    have hy : y = c := hxs y (List.mem_cons_self y ys)
    exact ih (max a y) (fun z hz => hxs z (List.mem_cons_of_mem y hz))
      (by rw [ha, hy]; exact max_self c)

theorem listMin_const (zs : List ℚ) (c : ℚ) (hne : zs ≠ [])
    (hc : ∀ z ∈ zs, z = c) : listMin zs = c := by
  cases zs with
  | nil => exact absurd rfl hne
  | cons z zs =>
    exact foldl_min_const zs c z (fun w hw => hc w (List.mem_cons_of_mem z hw))
      (hc z (List.mem_cons_self z zs))

theorem listMax_const (zs : List ℚ) (c : ℚ) (hne : zs ≠ [])
    (hc : ∀ z ∈ zs, z = c) : listMax zs = c := by
  cases zs with
  | nil => exact absurd rfl hne
  | cons z zs =>
    exact foldl_max_const zs c z (fun w hw => hc w (List.mem_cons_of_mem z hw))
      (hc z (List.mem_cons_self z zs))

theorem arangeList_nil_of_neg_step (start stop step : ℚ) (hstep : step < 0)
    (hle : start ≤ stop) : arangeList start stop step = [] := by
  unfold arangeList
  have hq : (stop - start) / step ≤ 0 := by
    rw [div_eq_mul_inv]
    exact mul_nonpos_of_nonneg_of_nonpos (by linarith) (inv_nonpos.mpr hstep.le)
  have : ⌈(stop - start) / step⌉ ≤ 0 := Int.ceil_le.mpr (by exact_mod_cast hq)
  rw [Int.toNat_of_nonpos this]
  rfl

/-! ## C5 — grid ranges are half-open arithmetic progressions -/

/-- C5: for a nonempty coordinate array and positive spacing, the
`np.arange(min, max, spacing)` sequence built at lines 88-89 has length
`ceil((max - min) / spacing)`, its `i`-th element is `min + i * spacing`,
and every element stays strictly below `max` (half-open upper bound).
The same definition is applied to x and to y at lines 88-89. -/
theorem C5_grid_arithmetic_progression (xs : List ℚ) (spacing : ℚ)
    (hxs : xs ≠ []) (hsp : 0 < spacing) :
    (((arangeList (listMin xs) (listMax xs) spacing).length : ℤ)
        = ⌈(listMax xs - listMin xs) / spacing⌉)
    ∧ (∀ (i : ℕ) (h : i < (arangeList (listMin xs) (listMax xs) spacing).length),
        (arangeList (listMin xs) (listMax xs) spacing).get ⟨i, h⟩
          = listMin xs + (i : ℚ) * spacing)
    ∧ (∀ v ∈ arangeList (listMin xs) (listMax xs) spacing, v < listMax xs) := by
  refine ⟨?_, fun i h => arangeList_get _ _ _ i h, arangeList_mem_lt _ _ _ hsp⟩
  rw [arangeList_length]
  have hq : (0 : ℚ) ≤ (listMax xs - listMin xs) / spacing :=
    div_nonneg (by linarith [listMin_le_listMax xs]) hsp.le
  exact Int.toNat_of_nonneg (Int.ceil_nonneg (by exact_mod_cast hq))

/-- C5 witness: `xs = [0, 5/2]`, spacing 1 gives the progression
`[0, 1, 2]` of length `⌈5/2⌉ = 3`. -/
theorem C5_grid_arithmetic_progression_witness :
    (([0, 5/2] : List ℚ) ≠ [] ∧ (0 : ℚ) < 1)
    ∧ ((((arangeList (listMin [0, 5/2]) (listMax [0, 5/2]) 1).length : ℤ)
        = ⌈(listMax [0, 5/2] - listMin [(0 : ℚ), 5/2]) / 1⌉)
      ∧ (∀ (i : ℕ) (h : i < (arangeList (listMin [0, 5/2]) (listMax [0, 5/2]) 1).length),
          (arangeList (listMin [0, 5/2]) (listMax [0, 5/2]) 1).get ⟨i, h⟩
            = listMin [0, 5/2] + (i : ℚ) * 1)
      ∧ (∀ v ∈ arangeList (listMin [0, 5/2]) (listMax [0, 5/2]) 1, v < listMax [0, 5/2])) :=
  ⟨⟨by simp, by norm_num⟩,
    C5_grid_arithmetic_progression [0, 5/2] 1 (by simp) (by norm_num)⟩

theorem arangeList_chain' (start stop step : ℚ) :
    List.Chain' (fun a b => b = a + step) (arangeList start stop step) := by
  rw [List.chain'_iff_get]
  intro i h
  have h1 : i < (arangeList start stop step).length := by omega
  have h2 : i + 1 < (arangeList start stop step).length := by omega
  rw [arangeList_get start stop step i h1, arangeList_get start stop step (i + 1) h2]
  push_cast
  ring

theorem arangeList_pairwise (start stop step : ℚ) (hstep : 0 < step) :
    (arangeList start stop step).Pairwise (· < ·) := by
  rw [List.pairwise_iff_get]
  intro i j hij
  have hi := arangeList_get start stop step i.val i.isLt
  have hj := arangeList_get start stop step j.val j.isLt
  rw [Fin.eta] at hi hj
  rw [hi, hj]
  have hq : (i.val : ℚ) < (j.val : ℚ) := by exact_mod_cast hij
  nlinarith

theorem arangeList_head (start stop step : ℚ) (h : arangeList start stop step ≠ []) :
    (arangeList start stop step).head? = some start := by
  have h0 : 0 < (arangeList start stop step).length := List.length_pos.mpr h
  have hget := arangeList_get start stop step 0 h0
  rw [List.head?_eq_head h, List.head_eq_getElem_zero h]
  rw [List.get_eq_getElem] at hget
  rw [hget]
  norm_num

/-! ## C6 — the level set -/

/-- C6: for a nonempty subset, the level set of line 97 steps by exactly
0.2 between consecutive elements, is strictly increasing, stays strictly
below `ceil(max z)` (half-open upper bound), and when nonempty starts at
`floor(min z)`. -/
theorem C6_levels_progression (zs : List ℚ) (hzs : zs ≠ []) :
    List.Chain' (fun a b => b = a + 1/5) (levelsFor zs)
    ∧ (levelsFor zs).Pairwise (· < ·)
    ∧ (∀ l ∈ levelsFor zs, l < ((⌈listMax zs⌉ : ℤ) : ℚ))
    ∧ (levelsFor zs ≠ [] → (levelsFor zs).head? = some ((⌊listMin zs⌋ : ℤ) : ℚ)) :=
  ⟨arangeList_chain' _ _ _,
    arangeList_pairwise _ _ _ (by norm_num),
    arangeList_mem_lt _ _ _ (by norm_num),
    fun hne => arangeList_head _ _ _ hne⟩

/-- C6 witness: `zs = [1/2, 3/2]` spans `[0, 2)`, a 10-element level set. -/
theorem C6_levels_progression_witness :
    (([1/2, 3/2] : List ℚ) ≠ [])
    ∧ (List.Chain' (fun a b => b = a + 1/5) (levelsFor [1/2, 3/2])
      ∧ (levelsFor [(1 : ℚ)/2, 3/2]).Pairwise (· < ·)
      ∧ (∀ l ∈ levelsFor [(1 : ℚ)/2, 3/2], l < ((⌈listMax [(1 : ℚ)/2, 3/2]⌉ : ℤ) : ℚ))
      ∧ (levelsFor [(1 : ℚ)/2, 3/2] ≠ [] →
          (levelsFor [(1 : ℚ)/2, 3/2]).head? = some ((⌊listMin [(1 : ℚ)/2, 3/2]⌋ : ℤ) : ℚ))) :=
  ⟨by simp, C6_levels_progression [1/2, 3/2] (by simp)⟩

/-! ## C4 — constant elevation does not give a singleton level set -/

/-- C4 counterexample: a subset whose elevations are all `5/2` (so
`min z = max z`) gets the level set `np.arange(2, 3, 0.2)` of five
elements, not at most one. -/
theorem C4_counterexample :
    listMin [(5 : ℚ)/2, 5/2] = listMax [(5 : ℚ)/2, 5/2]
    ∧ (levelsFor [(5 : ℚ)/2, 5/2]).length = 5
    ∧ ¬ (levelsFor [(5 : ℚ)/2, 5/2]).length ≤ 1 := by
  refine ⟨by with_unfolding_all rfl, by with_unfolding_all rfl, by
    with_unfolding_all decide⟩

/-- C4 amended: for a subset with constant elevation `c`, the level set
spans `[floor c, ceil c)` at step 0.2, hence has `5 * (ceil c - floor c)`
elements: none when `c` is an integer and exactly five otherwise. -/
theorem C4_constant_z_levels (zs : List ℚ) (c : ℚ) (hzs : zs ≠ [])
    (hc : ∀ z ∈ zs, z = c) :
    (levelsFor zs).length = (5 * (⌈c⌉ - ⌊c⌋)).toNat := by
  rw [levelsFor, listMin_const zs c hzs hc, listMax_const zs c hzs hc,
    arangeList_length]
  congr 1
  rw [div_div_eq_mul_div, div_one]
  rw [show (((⌈c⌉ : ℤ) : ℚ) - ((⌊c⌋ : ℤ) : ℚ)) * 5 = (((5 * (⌈c⌉ - ⌊c⌋) : ℤ)) : ℚ) by
    push_cast; ring]
  exact Int.ceil_intCast _

/-- C4 amended witness: constant elevation `5/2` gives
`5 * (3 - 2) = 5` levels. -/
theorem C4_constant_z_levels_witness :
    (([(5 : ℚ)/2, 5/2] : List ℚ) ≠ [] ∧ ∀ z ∈ [(5 : ℚ)/2, 5/2], z = 5/2)
    ∧ (levelsFor [(5 : ℚ)/2, 5/2]).length = (5 * (⌈(5 : ℚ)/2⌉ - ⌊(5 : ℚ)/2⌋)).toNat :=
  ⟨⟨by simp, by intro z hz; rw [List.mem_cons, List.mem_singleton] at hz; rcases hz with h | h <;> exact h⟩,
    C4_constant_z_levels [(5 : ℚ)/2, 5/2] (5/2) (by simp)
      (by intro z hz; rw [List.mem_cons, List.mem_singleton] at hz; rcases hz with h | h <;> exact h)⟩

/-! ## C9 — boolean-mask filtering -/

theorem applyMask_map_eq (vs : List ℚ) (ks : List ℕ) (code : ℕ)
    (h : vs.length = ks.length) :
    applyMask (ks.map (fun k => k == code)) vs
      = ((vs.zip ks).filter (fun p => p.2 == code)).map Prod.fst := by
  induction ks generalizing vs with
  | nil =>
    cases vs with
    | nil => rfl
    | cons v vs => simp at h
  | cons k ks ih =>
    cases vs with
    | nil => simp at h
    | cons v vs =>
      have h' : vs.length = ks.length := by simpa using h
      rcases Bool.eq_false_or_eq_true (k == code) with hk | hk <;>
        simp [applyMask, hk, List.filter_cons, ih vs h']

theorem applyMask_length (vs : List ℚ) (ks : List ℕ) (code : ℕ)
    (h : vs.length = ks.length) :
    (applyMask (ks.map (fun k => k == code)) vs).length
      = ks.countP (fun k => k == code) := by
  induction ks generalizing vs with
  | nil =>
    cases vs with
    | nil => rfl
    | cons v vs => simp at h
  | cons k ks ih =>
    cases vs with
    | nil => simp at h
    | cons v vs =>
      have h' : vs.length = ks.length := by simpa using h
      rcases Bool.eq_false_or_eq_true (k == code) with hk | hk <;>
        simp [applyMask, hk, List.countP_cons, ih vs h']

/-- C9: the mask built at line 80 selects, in original order, exactly the
points whose classification equals the code; the subset's length is the
number of matching points and the subset is empty when nothing matches
(the operation is total, so it never fails). -/
theorem C9_filter_selection (cloud : Cloud) (code : ℕ)
    (h : cloud.x.length = cloud.cls.length) :
    applyMask (maskOf cloud code) cloud.x
      = ((cloud.x.zip cloud.cls).filter (fun p => p.2 == code)).map Prod.fst
    ∧ (applyMask (maskOf cloud code) cloud.x).length
      = cloud.cls.countP (fun k => k == code)
    ∧ (cloud.cls.countP (fun k => k == code) = 0 →
        applyMask (maskOf cloud code) cloud.x = []) := by
  refine ⟨applyMask_map_eq _ _ _ h, applyMask_length _ _ _ h, fun hzero => ?_⟩
  have := applyMask_length cloud.x cloud.cls code h
  rw [hzero] at this
  exact List.length_eq_zero.mp this

/-- C9 witness: a three-point cloud with classes `[2, 5, 2]` filtered for
code 2 keeps the first and third x-values. -/
theorem C9_filter_selection_witness :
    ((⟨[10, 20, 30], [1, 2, 3], [7, 8, 9], [2, 5, 2]⟩ : Cloud).x.length
        = (⟨[10, 20, 30], [1, 2, 3], [7, 8, 9], [2, 5, 2]⟩ : Cloud).cls.length)
    ∧ applyMask (maskOf ⟨[10, 20, 30], [1, 2, 3], [7, 8, 9], [2, 5, 2]⟩ 2)
        (⟨[10, 20, 30], [1, 2, 3], [7, 8, 9], [2, 5, 2]⟩ : Cloud).x = [10, 30] :=
  ⟨rfl, by
    have := (C9_filter_selection ⟨[10, 20, 30], [1, 2, 3], [7, 8, 9], [2, 5, 2]⟩ 2 rfl).1
    rw [this]
    with_unfolding_all rfl⟩

/-! ## Concrete clouds used as failing/witness inputs -/

/-- A cloud whose single class 3 has exactly 99 points. -/
def cloud99 : Cloud :=
  ⟨(List.range 99).map (fun k => (k : ℚ)),
   (List.range 99).map (fun k => (k : ℚ)),
   (List.range 99).map (fun k => (k : ℚ)),
   List.replicate 99 3⟩

/-- A cloud whose class 2 has 100 points, all on the line `y = 0`
(degenerate for triangulation). -/
def cloudLine : Cloud :=
  ⟨(List.range 100).map (fun k => (k : ℚ)),
   List.replicate 100 0,
   (List.range 100).map (fun k => (k : ℚ)),
   List.replicate 100 2⟩

/-- A cloud whose class 2 has 100 points that are not all collinear
(the third point sits off the x-axis). -/
def cloud100 : Cloud :=
  ⟨(List.range 100).map (fun k => if k = 2 then 0 else (k : ℚ)),
   (List.range 100).map (fun k => if k = 2 then 1 else 0),
   (List.range 100).map (fun k => (k : ℚ)),
   List.replicate 100 2⟩

/-- A constant colour assignment (the colour plays no role in the claims). -/
def whiteC : ℕ → String := fun _ => "white"

/-! ## C10 — empty selection -/

/-- C10: with no classes selected the loop body never runs: generation
completes without error, draws no layer and reports no progress (in
particular the division by `len(selected_classes)` at line 101 is never
reached). -/
theorem C10_empty_selection (cloud : Cloud) (colors : ℕ → String)
    (spacing lineWidth : ℚ) :
    composite cloud colors spacing lineWidth [] = Except.ok ([], []) := rfl

/-! ## C1 — progress reporting skips the skipped classes -/

set_option maxRecDepth 100000 in
/-- C1, behaviour at the failing input: the only selected class has 99
points, so line 85's `continue` fires before the progress call at line
101.  The run completes, but the progress sink receives no fraction at
all — in particular it never receives 1.0 — contradicting the claim that
every class (drawn or skipped) advances progress and that the sequence
ends at 1.0. -/
theorem C1_skipped_class_reports_no_progress :
    composite cloud99 whiteC 1 1 [3] = Except.ok ([], []) := by
  with_unfolding_all rfl

/-! ## Control-flow lemmas about one loop iteration -/

theorem classStep_error_of_collinear (cloud : Cloud) (colors : ℕ → String)
    (spacing lineWidth : ℚ) (c : ℕ)
    (hlen : 100 ≤ (applyMask (maskOf cloud c) cloud.z).length)
    (hcol : allCollinear ((samplesOf (applyMask (maskOf cloud c) cloud.x)
        (applyMask (maskOf cloud c) cloud.y)
        (applyMask (maskOf cloud c) cloud.z)).map xyOf) = true) :
    ∃ e, classStep cloud colors spacing lineWidth c = Except.error e := by
  unfold classStep
  rw [if_neg (by omega)]
  by_cases hsp : spacing = 0
  · refine ⟨NpErr.zeroStep, ?_⟩
    simp only [np_arange, if_pos hsp]
  · refine ⟨NpErr.qhullDegenerate, ?_⟩
    simp only [np_arange, if_neg hsp, griddataLinear, if_pos hcol]

theorem classStep_error_of_neg_spacing (cloud : Cloud) (colors : ℕ → String)
    (spacing lineWidth : ℚ) (c : ℕ) (hsp : spacing < 0)
    (hlen : 100 ≤ (applyMask (maskOf cloud c) cloud.z).length) :
    ∃ e, classStep cloud colors spacing lineWidth c = Except.error e := by
  by_cases hcol : allCollinear ((samplesOf (applyMask (maskOf cloud c) cloud.x)
      (applyMask (maskOf cloud c) cloud.y)
      (applyMask (maskOf cloud c) cloud.z)).map xyOf) = true
  · exact classStep_error_of_collinear cloud colors spacing lineWidth c hlen hcol
  · refine ⟨NpErr.contourShape, ?_⟩
    unfold classStep
    rw [if_neg (by omega)]
    simp only [np_arange, if_neg (ne_of_lt hsp), griddataLinear, if_neg hcol]
    rw [arangeList_nil_of_neg_step (listMin (applyMask (maskOf cloud c) cloud.y))
      (listMax (applyMask (maskOf cloud c) cloud.y)) spacing hsp (listMin_le_listMax _)]
    rfl

theorem compositeAux_ok_of_all_skip (cloud : Cloud) (colors : ℕ → String)
    (spacing lineWidth : ℚ) (n : ℕ) (selected : List ℕ) (i : ℕ)
    (h : ∀ c ∈ selected, classStep cloud colors spacing lineWidth c = Except.ok none) :
    compositeAux cloud colors spacing lineWidth n selected i = Except.ok ([], []) := by
  induction selected generalizing i with
  | nil => rfl
  | cons c rest ih =>
    unfold compositeAux
    rw [h c (List.mem_cons_self c rest)]
    exact ih (i + 1) (fun d hd => h d (List.mem_cons_of_mem c hd))

theorem compositeAux_error_of_mem (cloud : Cloud) (colors : ℕ → String)
    (spacing lineWidth : ℚ) (n : ℕ) (selected : List ℕ) (i : ℕ) (c : ℕ)
    (hc : c ∈ selected)
    (herr : ∃ e, classStep cloud colors spacing lineWidth c = Except.error e) :
    ∃ e, compositeAux cloud colors spacing lineWidth n selected i = Except.error e := by
  induction selected generalizing i with
  | nil => exact absurd hc (List.not_mem_nil c)
  | cons d rest ih =>
    rcases List.mem_cons.mp hc with rfl | hmem
    · obtain ⟨e, he⟩ := herr
      refine ⟨e, ?_⟩
      unfold compositeAux
      rw [he]
    · unfold compositeAux
      cases hstep : classStep cloud colors spacing lineWidth d with
      | error e => exact ⟨e, rfl⟩
      | ok o =>
        cases o with
        | none => exact ih (i + 1) hmem
        | some lay =>
          obtain ⟨e, he⟩ := ih (i + 1) hmem
          rw [he]
          exact ⟨e, rfl⟩

/-! ## C2 — spacing ≤ 0 -/

set_option maxRecDepth 100000 in
/-- C2 counterexample: a request with spacing `-1` (≤ 0) does not fail
with an `InvalidParameterError` (no such error exists in the script) and
not before class processing: the class is filtered, gridded and
interpolated first; `np.arange` with a negative step silently yields
empty ranges, the empty field's shrunk mask makes `mask.all()` False so
the skip at line 94 does not fire, and the run aborts inside `ax.contour`
with matplotlib's `TypeError` about a z array smaller than 2 by 2. -/
theorem C2_counterexample :
    composite cloud100 whiteC (-1) 1 [2] = Except.error NpErr.contourShape := by
  with_unfolding_all rfl

/-- C2 amended: a request with spacing ≤ 0 does fail, but not with an
`InvalidParameterError` (which does not exist in the script) and not
before any class is processed: each selected class is filtered first, and
the failure is raised from inside the first class with at least 100
points.  For spacing < 0 both `np.arange` ranges are empty; the empty
field is not caught by the `mask.all()` check (the all-False mask shrinks
to `nomask`, whose `.all()` is False) unless the sites were collinear (a
Qhull error inside `griddata`), so the run reaches `ax.contour` and
aborts with a `TypeError` about the (0, 0)-shaped z array.  (For spacing
exactly 0, `np.arange` itself raises `ZeroDivisionError`, likewise after
that class was filtered.) -/
theorem C2_negative_spacing_aborts (cloud : Cloud) (colors : ℕ → String)
    (spacing lineWidth : ℚ) (selected : List ℕ) (c : ℕ) (hsp : spacing < 0)
    (hc : c ∈ selected)
    (hlen : 100 ≤ (applyMask (maskOf cloud c) cloud.z).length) :
    ∃ e, composite cloud colors spacing lineWidth selected = Except.error e :=
  compositeAux_error_of_mem cloud colors spacing lineWidth selected.length selected 0 c hc
    (classStep_error_of_neg_spacing cloud colors spacing lineWidth c hsp hlen)

set_option maxRecDepth 100000 in
/-- C2 amended witness: spacing `-1` on the non-degenerate 100-point
class 2 aborts the request. -/
theorem C2_negative_spacing_aborts_witness :
    ((-1 : ℚ) < 0
      ∧ 2 ∈ [2]
      ∧ 100 ≤ (applyMask (maskOf cloud100 2) cloud100.z).length)
    ∧ ∃ e, composite cloud100 whiteC (-1) 1 [2] = Except.error e := by
  have hsp : (-1 : ℚ) < 0 := by norm_num
  have hc : (2 : ℕ) ∈ [2] := by decide
  have hlen : 100 ≤ (applyMask (maskOf cloud100 2) cloud100.z).length := by
    with_unfolding_all decide
  exact ⟨⟨hsp, hc, hlen⟩,
    C2_negative_spacing_aborts cloud100 whiteC (-1) 1 [2] 2 hsp hc hlen⟩

/-! ## C3 — degenerate triangulation aborts instead of skipping -/

set_option maxRecDepth 100000 in
/-- C3 counterexample: class 2 of `cloudLine` has 100 points, all on one
line.  `griddata` raises the Qhull degeneracy error, the loop has no
try/except, and the whole request aborts — the class is not silently
skipped and no further class would be processed. -/
theorem C3_counterexample :
    composite cloudLine whiteC 1 1 [2] = Except.error NpErr.qhullDegenerate := by
  with_unfolding_all rfl

/-- C3 amended: when a selected class has at least 100 points whose sites
hold fewer than 3 non-collinear points, the degenerate-triangulation error
from `griddata` propagates out of the loop (there is no handler), aborting
the whole request instead of skipping the class. -/
theorem C3_degenerate_class_aborts (cloud : Cloud) (colors : ℕ → String)
    (spacing lineWidth : ℚ) (selected : List ℕ) (c : ℕ) (hc : c ∈ selected)
    (hlen : 100 ≤ (applyMask (maskOf cloud c) cloud.z).length)
    (hcol : allCollinear ((samplesOf (applyMask (maskOf cloud c) cloud.x)
        (applyMask (maskOf cloud c) cloud.y)
        (applyMask (maskOf cloud c) cloud.z)).map xyOf) = true) :
    ∃ e, composite cloud colors spacing lineWidth selected = Except.error e :=
  compositeAux_error_of_mem cloud colors spacing lineWidth selected.length selected 0 c hc
    (classStep_error_of_collinear cloud colors spacing lineWidth c hlen hcol)

set_option maxRecDepth 100000 in
/-- C3 amended witness: the all-collinear 100-point class aborts the
request. -/
theorem C3_degenerate_class_aborts_witness :
    ((2 ∈ [2]
      ∧ 100 ≤ (applyMask (maskOf cloudLine 2) cloudLine.z).length)
      ∧ allCollinear ((samplesOf (applyMask (maskOf cloudLine 2) cloudLine.x)
          (applyMask (maskOf cloudLine 2) cloudLine.y)
          (applyMask (maskOf cloudLine 2) cloudLine.z)).map xyOf) = true)
    ∧ ∃ e, composite cloudLine whiteC 1 1 [2] = Except.error e := by
  have h1 : (2 : ℕ) ∈ [2] := by decide
  have h2 : 100 ≤ (applyMask (maskOf cloudLine 2) cloudLine.z).length := by
    with_unfolding_all decide
  have h3 : allCollinear ((samplesOf (applyMask (maskOf cloudLine 2) cloudLine.x)
      (applyMask (maskOf cloudLine 2) cloudLine.y)
      (applyMask (maskOf cloudLine 2) cloudLine.z)).map xyOf) = true := by
    with_unfolding_all rfl
  exact ⟨⟨⟨h1, h2⟩, h3⟩,
    C3_degenerate_class_aborts cloudLine whiteC 1 1 [2] 2 h1 h2 h3⟩

/-! ## Barycentric geometry of the interpolator -/

theorem triContains_d_ne (A B C P : ℚ × ℚ) (h : triContains A B C P = true) :
    det2 (B - A) (C - A) ≠ 0 := by
  intro hd
  unfold triContains at h
  rw [if_pos hd] at h
  exact Bool.false_ne_true h

theorem triContains_coeffs (A B C P : ℚ × ℚ) (h : triContains A B C P = true) :
    0 ≤ det2 (P - A) (C - A) / det2 (B - A) (C - A)
    ∧ 0 ≤ det2 (B - A) (P - A) / det2 (B - A) (C - A)
    ∧ det2 (P - A) (C - A) / det2 (B - A) (C - A)
        + det2 (B - A) (P - A) / det2 (B - A) (C - A) ≤ 1 := by
  have hd := triContains_d_ne A B C P h
  unfold triContains at h
  rw [if_neg hd] at h
  simp only [Bool.and_eq_true, decide_eq_true_eq] at h
  exact ⟨h.1.1, h.1.2, h.2⟩

theorem triContains_combo (A B C P : ℚ × ℚ) (h : triContains A B C P = true) :
    P = (1 - det2 (P - A) (C - A) / det2 (B - A) (C - A)
          - det2 (B - A) (P - A) / det2 (B - A) (C - A)) • A
        + (det2 (P - A) (C - A) / det2 (B - A) (C - A)) • B
        + (det2 (B - A) (P - A) / det2 (B - A) (C - A)) • C := by
  have hd := triContains_d_ne A B C P h
  unfold det2 at hd ⊢
  simp only [Prod.fst_sub, Prod.snd_sub] at hd
  apply Prod.ext
  · simp only [Prod.fst_add, Prod.smul_fst, smul_eq_mul, Prod.fst_sub, Prod.snd_sub]
    field_simp [hd]
    ring
  · simp only [Prod.snd_add, Prod.smul_snd, smul_eq_mul, Prod.fst_sub, Prod.snd_sub]
    field_simp [hd]
    ring

theorem combo_mem_convexHull (S : Set (ℚ × ℚ)) (A B C P : ℚ × ℚ)
    (hA : A ∈ S) (hB : B ∈ S) (hC : C ∈ S) (a b c : ℚ)
    (ha : 0 ≤ a) (hb : 0 ≤ b) (hc : 0 ≤ c) (habc : a + b + c = 1)
    (hP : P = a • A + b • B + c • C) : P ∈ convexHull ℚ S := by
  have h0 : ∀ i ∈ (Finset.univ : Finset (Fin 3)), 0 ≤ ![a, b, c] i := by
    intro i _
    fin_cases i <;> simpa
  have h1 : ∑ i ∈ (Finset.univ : Finset (Fin 3)), ![a, b, c] i = 1 := by
    rw [Fin.sum_univ_three]
    simpa using habc
  have hz : ∀ i ∈ (Finset.univ : Finset (Fin 3)),
      ![A, B, C] i ∈ convexHull ℚ S := by
    intro i _
    fin_cases i
    · simpa using subset_convexHull ℚ S hA
    · simpa using subset_convexHull ℚ S hB
    · simpa using subset_convexHull ℚ S hC
  have hkey := (convex_convexHull ℚ S).sum_mem h0 h1 hz
  rw [Fin.sum_univ_three] at hkey
  simpa [hP] using hkey

theorem det2_zero_left (v : ℚ × ℚ) : det2 0 v = 0 := by
  unfold det2
  simp

theorem det2_zero_right (v : ℚ × ℚ) : det2 v 0 = 0 := by
  unfold det2
  simp

theorem det2_self (v : ℚ × ℚ) : det2 v v = 0 := by
  unfold det2
  ring

theorem triValue_vertex_a (a b c : Pt3) (P : ℚ × ℚ) (h : xyOf a = P) :
    triValue a b c P = zOf a := by
  unfold triValue
  dsimp only
  rw [← h, sub_self, det2_zero_left, det2_zero_right, zero_div]
  ring

theorem triValue_vertex_b (a b c : Pt3) (P : ℚ × ℚ)
    (hd : det2 (xyOf b - xyOf a) (xyOf c - xyOf a) ≠ 0) (h : xyOf b = P) :
    triValue a b c P = zOf b := by
  unfold triValue
  dsimp only
  rw [← h, det2_self, zero_div, div_self hd]
  ring

theorem triValue_vertex_c (a b c : Pt3) (P : ℚ × ℚ)
    (hd : det2 (xyOf b - xyOf a) (xyOf c - xyOf a) ≠ 0) (h : xyOf c = P) :
    triValue a b c P = zOf c := by
  unfold triValue
  dsimp only
  rw [← h, det2_self, zero_div, div_self hd]
  ring

theorem allTriples_isTriangOf (samples : List Pt3) :
    IsTriangOf samples (allTriples samples) := by
  intro t ht
  unfold allTriples at ht
  simp only [List.mem_flatMap, List.mem_map] at ht
  obtain ⟨a, ha, b, hb, c, hc, rfl⟩ := ht
  exact ⟨ha, hb, hc⟩

theorem interpTri_eq_none_outside_hull (samples : List Pt3)
    (T : List (Pt3 × Pt3 × Pt3)) (P : ℚ × ℚ) (hT : IsTriangOf samples T)
    (hP : P ∉ convexHull ℚ {q : ℚ × ℚ | q ∈ samples.map xyOf}) :
    interpTri T P = none := by
  unfold interpTri
  rw [List.find?_eq_none.mpr ?_]
  intro t ht hcont
  apply hP
  obtain ⟨hA, hB, hC⟩ := hT t ht
  have hco := triContains_coeffs _ _ _ _ hcont
  have hcombo := triContains_combo _ _ _ _ hcont
  exact combo_mem_convexHull _ _ _ _ _
    (List.mem_map_of_mem xyOf hA) (List.mem_map_of_mem xyOf hB)
    (List.mem_map_of_mem xyOf hC)
    _ _ _ (by linarith [hco.1, hco.2.1, hco.2.2]) hco.1 hco.2.1
    (by ring) hcombo

theorem interpTri_vertex (samples : List Pt3) (T : List (Pt3 × Pt3 × Pt3))
    (P : ℚ × ℚ) (s : Pt3) (hT : IsTriangOf samples T)
    (huniq : ∀ s2 ∈ samples, xyOf s2 = P → zOf s2 = zOf s)
    (hvert : ∀ t ∈ T, triContains (xyOf t.1) (xyOf t.2.1) (xyOf t.2.2) P = true →
        xyOf t.1 = P ∨ xyOf t.2.1 = P ∨ xyOf t.2.2 = P)
    (hcov : ∃ t ∈ T, triContains (xyOf t.1) (xyOf t.2.1) (xyOf t.2.2) P = true) :
    interpTri T P = some (zOf s) := by
  have hsome : (T.find? (fun t =>
      triContains (xyOf t.1) (xyOf t.2.1) (xyOf t.2.2) P)).isSome := by
    rw [List.find?_isSome]
    obtain ⟨t0, ht0, hc0⟩ := hcov
    exact ⟨t0, ht0, hc0⟩
  obtain ⟨t, ht⟩ := Option.isSome_iff_exists.mp hsome
  have htc0 := List.find?_some ht
  have htc : triContains (xyOf t.1) (xyOf t.2.1) (xyOf t.2.2) P = true := htc0
  have htT : t ∈ T := List.mem_of_find?_eq_some ht
  unfold interpTri
  rw [ht]
  show some (triValue t.1 t.2.1 t.2.2 P) = some (zOf s)
  have hd := triContains_d_ne _ _ _ _ htc
  rcases hvert t htT htc with hv | hv | hv
  · rw [triValue_vertex_a _ _ _ _ hv]
    exact congrArg some (huniq t.1 (hT t htT).1 hv)
  · rw [triValue_vertex_b _ _ _ _ hd hv]
    exact congrArg some (huniq t.2.1 (hT t htT).2.1 hv)
  · rw [triValue_vertex_c _ _ _ _ hd hv]
    exact congrArg some (huniq t.2.2 (hT t htT).2.2 hv)

/-! ## C7 — convex-hull masking -/

/-- C7: for any triangle list drawn from the samples (`scipy`'s Delaunay
triangulation is one), a query point outside the convex hull of the
sample sites is contained in no triangle, so the interpolated field marks
it invalid; and concretely, the centroid `(2, 2)` of the three widely
spread samples `(0,0)`, `(6,0)`, `(0,6)` is valid (value `(0+3+6)/3`). -/
theorem C7_hull_masking :
    (∀ (samples : List Pt3) (T : List (Pt3 × Pt3 × Pt3)) (P : ℚ × ℚ),
        IsTriangOf samples T →
        P ∉ convexHull ℚ {q : ℚ × ℚ | q ∈ samples.map xyOf} →
        interpTri T P = none)
    ∧ interpAt [((0 : ℚ), (0 : ℚ), (0 : ℚ)), (6, 0, 3), (0, 6, 6)] (2, 2) = some 3 :=
  ⟨interpTri_eq_none_outside_hull, by with_unfolding_all rfl⟩

/-- Three non-collinear samples used in the C7 witness. -/
def samples3 : List Pt3 := [(0, 0, 0), (1, 0, 1), (0, 1, 2)]

theorem pt55_notin_hull :
    ((5 : ℚ), (5 : ℚ)) ∉ convexHull ℚ {q : ℚ × ℚ | q ∈ samples3.map xyOf} := by
  intro hmem
  have hlin : IsLinearMap ℚ (fun q : ℚ × ℚ => q.1 + q.2) :=
    ⟨fun p q => by simp only [Prod.fst_add, Prod.snd_add]; ring,
     fun r p => by simp only [Prod.smul_fst, Prod.smul_snd, smul_eq_mul]; ring⟩
  have hsub : {q : ℚ × ℚ | q ∈ samples3.map xyOf} ⊆ {q : ℚ × ℚ | q.1 + q.2 ≤ 1} := by
    intro q hq
    have hq2 : q ∈ ([(0, 0), (1, 0), (0, 1)] : List (ℚ × ℚ)) := hq
    simp only [List.mem_cons, List.mem_singleton, List.not_mem_nil, or_false] at hq2
    rcases hq2 with rfl | rfl | rfl <;> norm_num
  have hin := convexHull_min hsub (convex_halfSpace_le hlin 1) hmem
  have hcontra : (5 : ℚ) + 5 ≤ 1 := hin
  norm_num at hcontra

/-- C7 witness: the point `(5, 5)` lies outside the hull of the sites of
`samples3` and the interpolator masks it. -/
theorem C7_hull_masking_witness :
    (IsTriangOf samples3 (allTriples samples3)
      ∧ ((5 : ℚ), (5 : ℚ)) ∉ convexHull ℚ {q : ℚ × ℚ | q ∈ samples3.map xyOf})
    ∧ interpAt samples3 ((5 : ℚ), (5 : ℚ)) = none :=
  ⟨⟨allTriples_isTriangOf samples3, pt55_notin_hull⟩,
    C7_hull_masking.1 samples3 (allTriples samples3) ((5 : ℚ), (5 : ℚ))
      (allTriples_isTriangOf samples3) pt55_notin_hull⟩

/-! ## C8 — exact interpolation at a coincident sample -/

/-- C8: when a grid point coincides with a sample site (all samples at
that site sharing one elevation), any conforming triangulation-based
barycentric interpolation — `scipy`'s Delaunay interpolation included,
since its triangulations have every sample as a vertex — returns exactly
that sample's z at the grid point. -/
theorem C8_exact_at_coincident_sample (samples : List Pt3)
    (T : List (Pt3 × Pt3 × Pt3)) (P : ℚ × ℚ) (s : Pt3)
    (hs : s ∈ samples) (hxy : xyOf s = P)
    (huniq : ∀ s2 ∈ samples, xyOf s2 = P → zOf s2 = zOf s)
    (hT : IsTriangOf samples T)
    (hvert : ∀ t ∈ T, triContains (xyOf t.1) (xyOf t.2.1) (xyOf t.2.2) P = true →
        xyOf t.1 = P ∨ xyOf t.2.1 = P ∨ xyOf t.2.2 = P)
    (hcov : ∃ t ∈ T, triContains (xyOf t.1) (xyOf t.2.1) (xyOf t.2.2) P = true) :
    interpTri T P = some (zOf s) :=
  interpTri_vertex samples T P s hT huniq hvert hcov

/-- Samples and single-triangle triangulation for the C8 witness. -/
def samples8 : List Pt3 := [(0, 0, 10), (1, 0, 20), (0, 1, 30)]

/-- The one-triangle Delaunay triangulation of `samples8`. -/
def T8 : List (Pt3 × Pt3 × Pt3) := [((0, 0, 10), (1, 0, 20), (0, 1, 30))]

/-- C8 witness: querying at the sample site `(0, 0)` returns that
sample's elevation 10. -/
theorem C8_exact_at_coincident_sample_witness :
    (((0 : ℚ), (0 : ℚ), (10 : ℚ)) : Pt3) ∈ samples8
    ∧ xyOf ((0 : ℚ), (0 : ℚ), (10 : ℚ)) = ((0 : ℚ), (0 : ℚ))
    ∧ (∀ s2 ∈ samples8, xyOf s2 = ((0 : ℚ), (0 : ℚ)) →
        zOf s2 = zOf ((0 : ℚ), (0 : ℚ), (10 : ℚ)))
    ∧ IsTriangOf samples8 T8
    ∧ (∀ t ∈ T8,
        triContains (xyOf t.1) (xyOf t.2.1) (xyOf t.2.2) ((0 : ℚ), (0 : ℚ)) = true →
        xyOf t.1 = ((0 : ℚ), (0 : ℚ)) ∨ xyOf t.2.1 = ((0 : ℚ), (0 : ℚ))
          ∨ xyOf t.2.2 = ((0 : ℚ), (0 : ℚ)))
    ∧ (∃ t ∈ T8,
        triContains (xyOf t.1) (xyOf t.2.1) (xyOf t.2.2) ((0 : ℚ), (0 : ℚ)) = true)
    ∧ interpTri T8 ((0 : ℚ), (0 : ℚ)) = some (zOf ((0 : ℚ), (0 : ℚ), (10 : ℚ))) := by
  have h1 : (((0 : ℚ), (0 : ℚ), (10 : ℚ)) : Pt3) ∈ samples8 := by
    with_unfolding_all decide
  have h2 : xyOf ((0 : ℚ), (0 : ℚ), (10 : ℚ)) = ((0 : ℚ), (0 : ℚ)) := by
    with_unfolding_all rfl
  have h3 : ∀ s2 ∈ samples8, xyOf s2 = ((0 : ℚ), (0 : ℚ)) →
      zOf s2 = zOf ((0 : ℚ), (0 : ℚ), (10 : ℚ)) := by
    with_unfolding_all decide
  have h4 : IsTriangOf samples8 T8 := by
    unfold IsTriangOf
    with_unfolding_all decide
  have h5 : ∀ t ∈ T8,
      triContains (xyOf t.1) (xyOf t.2.1) (xyOf t.2.2) ((0 : ℚ), (0 : ℚ)) = true →
      xyOf t.1 = ((0 : ℚ), (0 : ℚ)) ∨ xyOf t.2.1 = ((0 : ℚ), (0 : ℚ))
        ∨ xyOf t.2.2 = ((0 : ℚ), (0 : ℚ)) := by
    with_unfolding_all decide
  have h6 : ∃ t ∈ T8,
      triContains (xyOf t.1) (xyOf t.2.1) (xyOf t.2.2) ((0 : ℚ), (0 : ℚ)) = true := by
    with_unfolding_all decide
  exact ⟨h1, h2, h3, h4, h5, h6,
    C8_exact_at_coincident_sample samples8 T8 ((0 : ℚ), (0 : ℚ))
      ((0 : ℚ), (0 : ℚ), (10 : ℚ)) h1 h2 h3 h4 h5 h6⟩

end ContourGen
